import Mathlib

/-!
Shallow embedding of the git push gate hook of the claude-pm-framework
repository (the `PreToolUse` hook script: trigger filter, six local CI
checks, verdict aggregation, allow/block output).

Modelling conventions:
* Machine effects are threaded through an explicit `Env` record: the results
  of the version-control queries (`git rev-parse --abbrev-ref HEAD`, the
  commit-subject log query with its in-shell fallback), the existence of
  `package.json` / `tsconfig.json`, the parsed manifest, and the outcome of
  each external tool invocation performed via `spawnSync`.
* `execSync` throws on failure; the script wraps those calls in `try`/`catch`,
  so their outcomes are `Except` values.
* `spawnSync` reports invocation failures (missing binary, timeout kill,
  spawn error) through the *returned* record - the `error` field is set and
  `status` is `null` (for a timeout/kill) or a nonzero shell exit code (for a
  missing binary under `shell: true`) - and does not throw.  A timed-out or
  killed invocation is therefore modelled as `ExecOutcome.completed r` with
  `r.exitStatus = none`; the constructor `ExecOutcome.thrown` models an
  exception raised inside the `try` block (e.g. by `fs.readFileSync` or
  `JSON.parse`, or hypothetically by the spawn layer), which is what the
  script's `catch` clauses receive.
* JavaScript string regular expressions are compiled by hand to decidable
  `Bool` predicates over `List Char` (`/git\s+push/i`, the branch-name
  pattern, the Conventional-Commits pattern); JS `String#includes`,
  `Array#join`, `String#slice`, `trim`, `split('\n')` and the `a || b`
  string-default idiom each get a small definition mirroring their JS
  semantics on the inputs the script feeds them.
* Printing to stderr (the human report) is not modelled; the structured
  output (`continue`, `hookSpecificOutput.additionalContext`, process exit
  code) is the `HookOutput` record.  The `continue` field is named `cont`
  because `continue` is a Lean keyword.
-/

namespace PushGate

set_option maxRecDepth 16384

/-- Tri-state check verdict plus the transient initial state. -/
inductive Status where
  | pending
  | pass
  | fail
  | skip
deriving DecidableEq, Repr

/-- One check's outcome: a status and a human-readable message. -/
structure CheckResult where
  status : Status
  message : String
deriving DecidableEq, Repr

/-! ### JavaScript string-primitive models -/

/-- JS `\s` character class (whitespace, as used by `/git\s+push/i`). -/
def isJsWs (c : Char) : Bool :=
  c = ' ' || c = '\t' || c = '\n' || c = '\r' || c = '\x0b' || c = '\x0c' ||
  c = '\u00A0' || c = '\u1680' || ('\u2000' ≤ c && c ≤ '\u200A') ||
  c = '\u2028' || c = '\u2029' || c = '\u202F' || c = '\u205F' ||
  c = '\u3000' || c = '\uFEFF'

/-- JS line terminators (the characters regex `.` does not match). -/
def isJsLineTerm (c : Char) : Bool :=
  c = '\n' || c = '\r' || c = '\u2028' || c = '\u2029'

/-- JS `String#includes`: substring test. -/
def strContainsSub (s pat : String) : Bool :=
  s.data.tails.any (fun t => pat.data.isPrefixOf t)

/-- Propositional form of the substring relation. -/
def strHas (s pat : String) : Prop :=
  ∃ l r, s.data = l ++ pat.data ++ r

/-- JS `Array#join(sep)`. -/
def jsJoin (sep : String) : List String → String
  | [] => ""
  | [x] => x
  | x :: y :: xs => x ++ sep ++ jsJoin sep (y :: xs)

/-- JS `a || b` on strings (empty string and `null`/`undefined` are falsy;
both are modelled as `""`). -/
def jsOr (a b : String) : String :=
  if a = "" then b else a

/-- JS `String#slice(0, n)`. -/
def jsSlice (s : String) (n : Nat) : String :=
  String.mk (s.data.take n)

/-- JS `String#trim`. -/
def jsTrim (s : String) : String :=
  String.mk (((s.data.dropWhile isJsWs).reverse.dropWhile isJsWs).reverse)

/-- JS `String#split('\n')`, accumulator form. -/
def splitNlAux : List Char → List Char → List String
  | [], acc => [String.mk acc.reverse]
  | c :: cs, acc =>
    if c = '\n' then String.mk acc.reverse :: splitNlAux cs []
    else splitNlAux cs (c :: acc)

/-- JS `String#split('\n')`. -/
def splitNl (s : String) : List String :=
  splitNlAux s.data []

/-- `p` is a prefix of `s` (used for the hand-compiled regexes). -/
def strPrefix (p s : String) : Bool :=
  p.data.isPrefixOf s.data

/-- Truthiness of an optional script entry: JS `if (scripts.x)` is false for
`undefined` and for the empty string. -/
def truthy : Option String → Bool
  | none => false
  | some s => s ≠ ""

/-! ### Trigger filter: the regex `/git\s+push/i` -/

/-- Case-insensitive comparison against a lowercase letter. -/
def lcEq (c target : Char) : Bool :=
  c.toLower = target

/-- Does the list start with `push` (case-insensitively)? -/
def pushHere : List Char → Bool
  | p :: u :: s :: h :: _ => lcEq p 'p' && lcEq u 'u' && lcEq s 's' && lcEq h 'h'
  | _ => false

/-- Does the list start with one-or-more `\s` characters followed by
`push`? -/
def wsThenPush : List Char → Bool
  | [] => false
  | c :: cs => isJsWs c && (pushHere cs || wsThenPush cs)

/-- Does the list start with `git`, whitespace, `push`? -/
def gitPushHere : List Char → Bool
  | g :: i :: t :: rest => lcEq g 'g' && lcEq i 'i' && lcEq t 't' && wsThenPush rest
  | _ => false

/-- Does `/git\s+push/i` match anywhere in the list? -/
def findGitPush : List Char → Bool
  | [] => false
  | c :: cs => gitPushHere (c :: cs) || findGitPush cs

/-- `command.match(/git\s+push/i)` of the hook, as a Boolean. -/
def matchesGitPush (s : String) : Bool :=
  findGitPush s.data

/-! ### Branch-name pattern -/

/-- The character class `[a-z0-9._-]`. -/
def isSlugChar (c : Char) : Bool :=
  ('a' ≤ c && c ≤ 'z') || ('0' ≤ c && c ≤ '9') || c = '.' || c = '_' || c = '-'

/-- Branch type prefixes of the branch-naming regex. -/
def branchTypes : List String :=
  ["feature", "bugfix", "hotfix", "release", "chore", "docs", "refactor", "test"]

/-- `^(feature|bugfix|hotfix|release|chore|docs|refactor|test)/[a-z0-9._-]+$`. -/
def validBranchPattern (s : String) : Bool :=
  branchTypes.any fun t =>
    strPrefix (t ++ "/") s &&
      (let body := s.data.drop (t.length + 1)
       !body.isEmpty && body.all isSlugChar)

/-- `protectedBranches` of the hook. -/
def protectedBranches : List String :=
  ["main", "master", "develop"]

/-! ### Conventional-Commits pattern -/

/-- Commit type alternatives of the conventional-commit regex. -/
def commitTypes : List String :=
  ["feat", "fix", "docs", "style", "refactor", "perf", "test", "build", "ci", "chore", "revert"]

/-- Regex `.+$` (one or more non-line-terminator characters). -/
def dotPlus (l : List Char) : Bool :=
  !l.isEmpty && l.all (fun c => !isJsLineTerm c)

/-- Regex `!?: .+$`. -/
def bangColonRest : List Char → Bool
  | '!' :: ':' :: ' ' :: rest => dotPlus rest
  | ':' :: ' ' :: rest => dotPlus rest
  | _ => false

/-- Continuation of `\([a-z0-9._-]+\)` after at least one scope character:
more scope characters, then `)`, then `!?: .+$`. -/
def scopeCont : List Char → Bool
  | [] => false
  | ')' :: cs => bangColonRest cs
  | c :: cs => isSlugChar c && scopeCont cs

/-- Regex `\([a-z0-9._-]+\)!?: .+$` after the opening parenthesis. -/
def scopeThen : List Char → Bool
  | [] => false
  | c :: cs => isSlugChar c && scopeCont cs

/-- Regex `(\([a-z0-9._-]+\))?!?: .+$`. -/
def afterCommitType (l : List Char) : Bool :=
  (match l with
   | '(' :: rest => scopeThen rest
   | _ => false) || bangColonRest l

/-- The `conventionalPattern` regex of `checkCommitMessages`:
`^(feat|fix|docs|style|refactor|perf|test|build|ci|chore|revert)(\([a-z0-9._-]+\))?!?: .+$`. -/
def conventionalPatternB (s : String) : Bool :=
  commitTypes.any fun t =>
    strPrefix t s && afterCommitType (s.data.drop t.length)

/-! ### Environment: machine state and external-command outcomes -/

/-- The fields of `package.json` the hook inspects. -/
structure Manifest where
  lintScript : Option String
  typecheckScript : Option String
  testScript : Option String
  eslintDep : Bool
  typescriptDep : Bool
deriving DecidableEq, Repr

/-- The record `spawnSync` returns: exit status (`none` models JS `null`,
i.e. the child was killed by timeout/signal or never spawned) and the two
captured streams (`""` models JS `null`/empty). -/
structure SpawnResult where
  exitStatus : Option Int
  stdout : String
  stderr : String
deriving DecidableEq, Repr

/-- Outcome of one external tool invocation inside a `try` block:
`thrown` is an exception reaching the `catch`; `completed` is a returned
`spawnSync` record (which is how `spawnSync` reports timeouts and missing
binaries - it does not throw). -/
inductive ExecOutcome where
  | thrown (msg : String)
  | completed (r : SpawnResult)
deriving DecidableEq, Repr

/-- Ambient machine state for one pipeline run: outcomes of every external
query/invocation the hook can perform.  `gitBranch` and `commitLog` are
`execSync` calls (throwing on failure); `manifest` is
`JSON.parse(fs.readFileSync('package.json'))` (throwing with a message); the
remaining fields are `spawnSync` invocations. -/
structure Env where
  gitBranch : Except Unit String
  commitLog : Except Unit String
  packageJsonExists : Bool
  tsconfigExists : Bool
  manifest : Except String Manifest
  npmRunLint : ExecOutcome
  npxEslint : ExecOutcome
  npmRunTypecheck : ExecOutcome
  npxTsc : ExecOutcome
  npmTest : ExecOutcome
  npmAudit : ExecOutcome

/-- `result.stdout || result.stderr || 'Unknown error'`. -/
def spawnOutput (r : SpawnResult) : String :=
  jsOr (jsOr r.stdout r.stderr) "Unknown error"

/-- `result.stdout || result.stderr || ''` (security scan). -/
def secOutput (r : SpawnResult) : String :=
  jsOr (jsOr r.stdout r.stderr) ""

/-! ### The six checks -/

/-- `getCurrentBranch`: trimmed `git rev-parse --abbrev-ref HEAD` output, or
the literal `"unknown"` when the query throws. -/
def getCurrentBranch (env : Env) : String :=
  match env.gitBranch with
  | .ok s => jsTrim s
  | .error _ => "unknown"

/-- Check 1 (branch naming), the inline block of `processInput`. -/
def branchNamingCheck (currentBranch : String) : CheckResult :=
  if protectedBranches.contains currentBranch then
    ⟨.skip, "Protected branch (direct push)"⟩
  else if validBranchPattern currentBranch then
    ⟨.pass, "Branch name follows convention"⟩
  else
    ⟨.fail, "Invalid branch name: " ++ currentBranch ++
      "\nExpected: <type>/<description>\n" ++
      "Types: feature, bugfix, hotfix, release, chore, docs, refactor, test"⟩

/-- `execSync(git log ...).trim().split('\n').filter(Boolean)`. -/
def commitsFrom (raw : String) : List String :=
  (splitNl (jsTrim raw)).filter (fun s => s ≠ "")

/-- The subjects rejected by the conventional-commit pattern. -/
def invalidCommits (commits : List String) : List String :=
  commits.filter (fun c => !conventionalPatternB c)

/-- Core of `checkCommitMessages`, after the commit subjects are obtained. -/
def commitLintOf (commits : List String) : CheckResult :=
  if commits.length = 0 then
    ⟨.skip, "No new commits to check"⟩
  else if 0 < (invalidCommits commits).length then
    ⟨.fail, "Invalid commit messages:\n" ++
      jsJoin "\n" ((invalidCommits commits).map
        (fun c => "  - \"" ++ c ++ "\"")) ++
      "\n\nExpected format: type(scope): description\n" ++
      "Types: feat, fix, docs, style, refactor, perf, test, build, ci, chore, revert"⟩
  else
    ⟨.pass, toString commits.length ++ " commit(s) follow conventional format"⟩

/-- Check 2 (`checkCommitMessages`).  The combined `execSync` invocation
(`git log main..HEAD ... || git log -10 ...`, including the in-shell
fallback chosen by `getMainBranch`) is modelled as the single query
`env.commitLog` that either yields raw stdout or throws. -/
def checkCommitMessages (env : Env) : CheckResult :=
  match env.commitLog with
  | .error _ => ⟨.skip, "Could not check commits"⟩
  | .ok raw => commitLintOf (commitsFrom raw)

/-- Check 3 (`runLint`). -/
def runLint (env : Env) : CheckResult :=
  if env.packageJsonExists = false then
    ⟨.skip, "No package.json found"⟩
  else
    match env.manifest with
    | .error msg => ⟨.skip, "Lint check error: " ++ msg⟩
    | .ok m =>
      if truthy m.lintScript then
        match env.npmRunLint with
        | .thrown msg => ⟨.skip, "Lint check error: " ++ msg⟩
        | .completed r =>
          if r.exitStatus = some 0 then ⟨.pass, "Lint passed"⟩
          else ⟨.fail, "Lint errors:\n" ++ spawnOutput r⟩
      else if m.eslintDep then
        match env.npxEslint with
        | .thrown msg => ⟨.skip, "Lint check error: " ++ msg⟩
        | .completed r =>
          if r.exitStatus = some 0 then ⟨.pass, "ESLint passed"⟩
          else ⟨.fail, "ESLint errors:\n" ++ spawnOutput r⟩
      else ⟨.skip, "No lint script or ESLint configured"⟩

/-- Check 4 (`runTypeCheck`). -/
def runTypeCheck (env : Env) : CheckResult :=
  if env.tsconfigExists = false then
    ⟨.skip, "No tsconfig.json found"⟩
  else if env.packageJsonExists then
    match env.manifest with
    | .error msg => ⟨.skip, "TypeScript check error: " ++ msg⟩
    | .ok m =>
      if truthy m.typecheckScript then
        match env.npmRunTypecheck with
        | .thrown msg => ⟨.skip, "TypeScript check error: " ++ msg⟩
        | .completed r =>
          if r.exitStatus = some 0 then ⟨.pass, "TypeScript check passed"⟩
          else ⟨.fail, "TypeScript errors:\n" ++ spawnOutput r⟩
      else if m.typescriptDep then
        match env.npxTsc with
        | .thrown msg => ⟨.skip, "TypeScript check error: " ++ msg⟩
        | .completed r =>
          if r.exitStatus = some 0 then ⟨.pass, "TypeScript check passed"⟩
          else ⟨.fail, "TypeScript errors:\n" ++ spawnOutput r⟩
      else ⟨.skip, "TypeScript not installed"⟩
  else ⟨.skip, "TypeScript not installed"⟩

/-- Check 5 (`runTests`). -/
def runTests (env : Env) : CheckResult :=
  if env.packageJsonExists = false then
    ⟨.skip, "No package.json found"⟩
  else
    match env.manifest with
    | .error msg => ⟨.skip, "Test error: " ++ msg⟩
    | .ok m =>
      if truthy m.testScript = false then
        ⟨.skip, "No test script configured"⟩
      else if strContainsSub (m.testScript.getD "") "no test specified" then
        ⟨.skip, "No test script configured"⟩
      else
        match env.npmTest with
        | .thrown msg => ⟨.skip, "Test error: " ++ msg⟩
        | .completed r =>
          if r.exitStatus = some 0 then ⟨.pass, "All tests passed"⟩
          else ⟨.fail, "Test failures:\n" ++ spawnOutput r⟩

/-- Check 6 (`runSecurityScan`). -/
def runSecurityScan (env : Env) : CheckResult :=
  if env.packageJsonExists = false then
    ⟨.skip, "No package.json found"⟩
  else
    match env.npmAudit with
    | .thrown msg => ⟨.skip, "Security scan error: " ++ msg⟩
    | .completed r =>
      if r.exitStatus = some 0 then
        ⟨.pass, "No high/critical vulnerabilities"⟩
      else
        let output := secOutput r
        if strContainsSub output "high" || strContainsSub output "critical" then
          ⟨.fail, "Security vulnerabilities found:\n" ++ jsSlice output 500⟩
        else
          ⟨.pass, "No high/critical vulnerabilities"⟩

/-! ### Aggregation and host output -/

/-- `formatName`: insert a space before each capital, capitalize the first
character (regex `.`, so not a line terminator), trim. -/
def formatName (name : String) : String :=
  let spaced := name.data.flatMap
    (fun c => if 'A' ≤ c && c ≤ 'Z' then [' ', c] else [c])
  let upped :=
    match spaced with
    | [] => []
    | c :: cs => if isJsLineTerm c then c :: cs else c.toUpper :: cs
  jsTrim (String.mk upped)

/-- The structured payload plus the process exit code. `cont` is the JSON
field `continue`. -/
structure HookOutput where
  cont : Bool
  hookEventName : String
  additionalContext : String
  exitCode : Nat
deriving DecidableEq, Repr

/-- `allowPush(message = '')`. -/
def allowPush (message : String := "") : HookOutput :=
  ⟨true, "PreToolUse", message, 0⟩

/-- `blockPush(reason)`. -/
def blockPush (reason : String) : HookOutput :=
  ⟨false, "PreToolUse", reason, 2⟩

/-- The `results` object of `processInput` after all six checks ran. -/
structure Results where
  branchNaming : CheckResult
  commitLint : CheckResult
  lint : CheckResult
  typecheck : CheckResult
  tests : CheckResult
  security : CheckResult
deriving DecidableEq, Repr

/-- The six sequential check executions of `processInput`. -/
def runChecks (env : Env) : Results :=
  { branchNaming := branchNamingCheck (getCurrentBranch env)
    commitLint := checkCommitMessages env
    lint := runLint env
    typecheck := runTypeCheck env
    tests := runTests env
    security := runSecurityScan env }

/-- `Object.entries(results)` in insertion order. -/
def resultsList (r : Results) : List (String × CheckResult) :=
  [("branchNaming", r.branchNaming), ("commitLint", r.commitLint),
   ("lint", r.lint), ("typecheck", r.typecheck),
   ("tests", r.tests), ("security", r.security)]

/-- The `failed` partition of the aggregator. -/
def failedList (r : Results) : List (String × CheckResult) :=
  (resultsList r).filter (fun p => p.2.status == Status.fail)

/-- Structured input: `input.tool_input` with its `command` field. -/
structure ToolInput where
  command : Option String
deriving DecidableEq, Repr

/-- The parsed stdin payload. -/
structure Input where
  tool_input : Option ToolInput
deriving DecidableEq, Repr

/-- `(input.tool_input || {}).command || ''`. -/
def getCommand (input : Input) : String :=
  match input.tool_input with
  | none => ""
  | some t =>
    match t.command with
    | none => ""
    | some c => c

/-- Result of one hook invocation.  `notTriggered` is the early
`allowPush()` return taken before any check executes and before any report
line is printed; `triggered` carries the six check results together with the
final structured output. -/
inductive RunResult where
  | notTriggered (out : HookOutput)
  | triggered (results : Results) (out : HookOutput)
deriving DecidableEq, Repr

/-- `processInput`: trigger filter, the six checks, aggregation, and the
allow/block decision. -/
def processInput (env : Env) (input : Input) : RunResult :=
  if matchesGitPush (getCommand input) = false then
    .notTriggered (allowPush "")
  else if 0 < (failedList (runChecks env)).length then
    .triggered (runChecks env) (blockPush
      ("Local CI failed: " ++
        jsJoin ", " ((failedList (runChecks env)).map (fun f => formatName f.1)) ++
        "\n\nFix these issues before pushing to ensure GitHub Actions will pass."))
  else
    .triggered (runChecks env) (allowPush "")

/-- The stdin `end` handler: `JSON.parse` of the accumulated input, modelled
as an `Except` (error = the parse threw, i.e. malformed or absent JSON),
then `processInput`; the `catch` clause calls `allowPush()`. -/
def handleStdin (env : Env) (parsed : Except Unit Input) : RunResult :=
  match parsed with
  | .error _ => .notTriggered (allowPush "")
  | .ok input => processInput env input

/-- A check result is final when its status is one of the three terminal
verdicts. -/
def statusFinal (c : CheckResult) : Prop :=
  c.status = Status.pass ∨ c.status = Status.fail ∨ c.status = Status.skip

/-! ### Concrete machine states used to instantiate the theorems -/

/-- The scenario of spec §8: valid branch, one conventional commit, no
`package.json`, no `tsconfig.json`; every check passes or skips. -/
def envPassing : Env :=
  { gitBranch := .ok "feature/x"
    commitLog := .ok "feat: add x"
    packageJsonExists := false
    tsconfigExists := false
    manifest := .error "ENOENT: no such file or directory"
    npmRunLint := .thrown "ENOENT"
    npxEslint := .thrown "ENOENT"
    npmRunTypecheck := .thrown "ENOENT"
    npxTsc := .thrown "ENOENT"
    npmTest := .thrown "ENOENT"
    npmAudit := .thrown "ENOENT" }

/-- A hook payload whose command is a push. -/
def inputGitPush : Input := ⟨some ⟨some "git push origin feature/x"⟩⟩

/-- A hook payload whose command is not a push. -/
def inputLs : Input := ⟨some ⟨some "ls -la"⟩⟩

/-- A manifest defining only a lint script. -/
def manifestLintOnly : Manifest :=
  { lintScript := some "eslint ."
    typecheckScript := none
    testScript := none
    eslintDep := false
    typescriptDep := false }

/-- Machine state in which `npm run lint` is killed by the 60s timeout:
`spawnSync` returns with `status: null` (here `exitStatus = none`) and sets
`error`, and does not throw. -/
def envLintTimeout : Env :=
  { envPassing with
    packageJsonExists := true
    manifest := .ok manifestLintOnly
    npmRunLint := .completed ⟨none, "", ""⟩ }

/-- Machine state in which the `npm` binary is missing: under `shell: true`
the shell itself runs and exits 127 with a diagnostic on stderr. -/
def envLintMissingBinary : Env :=
  { envLintTimeout with
    npmRunLint := .completed ⟨some 127, "", "sh: 1: npm: not found"⟩ }

/-- Machine state in which reading/parsing `package.json` throws. -/
def envManifestBroken : Env :=
  { envPassing with
    packageJsonExists := true
    tsconfigExists := true
    manifest := .error "Unexpected token in JSON" }

/-- Machine state in which the lint spawn layer itself throws. -/
def envLintThrown : Env :=
  { envPassing with
    packageJsonExists := true
    manifest := .ok manifestLintOnly
    npmRunLint := .thrown "spawn failure" }

/-- Machine state with an invalid branch name and every other check
skipping. -/
def envBranchFail : Env :=
  { envPassing with gitBranch := .ok "random-branch", commitLog := .error () }

/-- The six results produced by `envBranchFail` on a push command. -/
def resultsBranchFail : Results :=
  { branchNaming := ⟨.fail, "Invalid branch name: random-branch\nExpected: <type>/<description>\nTypes: feature, bugfix, hotfix, release, chore, docs, refactor, test"⟩
    commitLint := ⟨.skip, "Could not check commits"⟩
    lint := ⟨.skip, "No package.json found"⟩
    typecheck := ⟨.skip, "No tsconfig.json found"⟩
    tests := ⟨.skip, "No package.json found"⟩
    security := ⟨.skip, "No package.json found"⟩ }

/-- The blocked output produced by `envBranchFail` on a push command. -/
def outBranchFail : HookOutput :=
  ⟨false, "PreToolUse",
    "Local CI failed: Branch Naming\n\nFix these issues before pushing to ensure GitHub Actions will pass.",
    2⟩

/-- Machine state outside a git repository: the branch query throws. -/
def envNoGit : Env :=
  { envPassing with gitBranch := .error (), commitLog := .error () }

/-- Machine state with a manifest and a clean audit (exit code 0). -/
def envAuditClean : Env :=
  { envPassing with
    packageJsonExists := true
    npmAudit := .completed ⟨some 0, "", ""⟩ }

/-- Audit output reporting a high-severity finding. -/
def auditFailR : SpawnResult := ⟨some 1, "found 3 high severity vulnerabilities", ""⟩

/-- Audit output that is only warning noise. -/
def auditWarnR : SpawnResult := ⟨some 1, "npm WARN deprecated package", ""⟩

/-- Machine state whose audit exits nonzero with a high-severity finding. -/
def envAuditFail : Env := { envAuditClean with npmAudit := .completed auditFailR }

/-- Machine state whose audit exits nonzero with only warning noise. -/
def envAuditWarn : Env := { envAuditClean with npmAudit := .completed auditWarnR }

/-- Machine state whose commit range has one bad subject. -/
def envCommitsBad : Env :=
  { envPassing with commitLog := .ok "feat(auth): add login\noops fix typo" }

/-- Machine state whose commit range has one conforming subject. -/
def envCommitsGood : Env :=
  { envPassing with commitLog := .ok "fix: correct bug" }

/-- Machine state whose commit range is empty. -/
def envCommitsNone : Env :=
  { envPassing with commitLog := .ok "" }

/-- Machine state whose audit spawn layer throws. -/
def envAuditThrown : Env :=
  { envPassing with packageJsonExists := true, npmAudit := .thrown "audit boom" }

/-- A manifest defining only a test script. -/
def manifestTestOnly : Manifest :=
  { lintScript := none
    typecheckScript := none
    testScript := some "jest"
    eslintDep := false
    typescriptDep := false }

/-- Machine state whose test spawn layer throws. -/
def envTestThrown : Env :=
  { envPassing with
    packageJsonExists := true
    manifest := .ok manifestTestOnly
    npmTest := .thrown "boom" }

/-! ### Generic lemmas -/

theorem strContainsSub_of_strHas {s pat : String} (h : strHas s pat) :
    strContainsSub s pat = true := by
  obtain ⟨l, r, hd⟩ := h
  unfold strContainsSub
  rw [List.any_eq_true]
  refine ⟨pat.data ++ r, ?_, ?_⟩
  · rw [List.mem_tails, hd]
    exact ⟨l, by rw [List.append_assoc]⟩
  · rw [List.isPrefixOf_iff_prefix]
    exact ⟨r, rfl⟩

theorem strHas_appendL {s pat : String} (t : String) (h : strHas s pat) :
    strHas (s ++ t) pat := by
  obtain ⟨l, r, hd⟩ := h
  exact ⟨l, r ++ t.data, by rw [String.data_append, hd]; simp [List.append_assoc]⟩

theorem strHas_appendR {t pat : String} (s : String) (h : strHas t pat) :
    strHas (s ++ t) pat := by
  obtain ⟨l, r, hd⟩ := h
  exact ⟨s.data ++ l, r, by rw [String.data_append, hd]; simp [List.append_assoc]⟩

theorem strHas_refl (s : String) : strHas s s :=
  ⟨[], [], by simp⟩

theorem strHas_mem_jsJoin {x : String} {l : List String} (sep : String) (h : x ∈ l) :
    strHas (jsJoin sep l) x := by
  induction l with
  | nil => cases h
  | cons a as ih =>
    cases as with
    | nil =>
      rcases List.mem_singleton.mp h with rfl
      exact strHas_refl x
    | cons b bs =>
      rcases List.mem_cons.mp h with rfl | hmem
      · exact strHas_appendL _ (strHas_appendL _ (strHas_refl x))
      · exact strHas_appendR _ (ih hmem)

theorem failedList_pos_iff (r : Results) :
    0 < (failedList r).length ↔
      (r.branchNaming.status = Status.fail ∨ r.commitLint.status = Status.fail ∨
       r.lint.status = Status.fail ∨ r.typecheck.status = Status.fail ∨
       r.tests.status = Status.fail ∨ r.security.status = Status.fail) := by
  unfold failedList
  rw [List.length_pos, Ne, List.filter_eq_nil_iff]
  push_neg
  simp [resultsList]

theorem branchNamingCheck_final (b : String) : statusFinal (branchNamingCheck b) := by
  unfold branchNamingCheck statusFinal
  repeat' split
  all_goals simp

theorem commitLintOf_final (commits : List String) : statusFinal (commitLintOf commits) := by
  unfold commitLintOf statusFinal
  repeat' split
  all_goals simp

theorem checkCommitMessages_final (env : Env) : statusFinal (checkCommitMessages env) := by
  unfold checkCommitMessages
  split
  · simp [statusFinal]
  · exact commitLintOf_final _

theorem runLint_final (env : Env) : statusFinal (runLint env) := by
  unfold runLint statusFinal
  repeat' split
  all_goals simp

theorem runTypeCheck_final (env : Env) : statusFinal (runTypeCheck env) := by
  unfold runTypeCheck statusFinal
  repeat' split
  all_goals simp

theorem runTests_final (env : Env) : statusFinal (runTests env) := by
  unfold runTests statusFinal
  repeat' split
  all_goals simp

theorem runSecurityScan_final (env : Env) : statusFinal (runSecurityScan env) := by
  unfold runSecurityScan statusFinal
  split
  · simp
  · split
    · simp
    · rename_i r heq
      split
      · simp
      · by_cases hh :
          (strContainsSub (secOutput r) "high" || strContainsSub (secOutput r) "critical") = true
        · simp [hh]
        · simp [hh]

theorem not_pending_of_final {c : CheckResult} (h : statusFinal c) :
    c.status ≠ Status.pending := by
  rcases h with h | h | h <;> rw [h] <;> decide

/-! ### Claim theorems -/

/-- C3: for every input payload that is not parseable as the expected
structured JSON (malformed or absent), the system fails open: it emits
`continue: true` with exit code 0, runs zero checks, and prints no report
(the `notTriggered` constructor is the early `allowPush()` return taken
before any check executes and before any report line is printed). -/
theorem malformed_input_fail_open (env : Env) :
    handleStdin env (Except.error ()) =
      .notTriggered ⟨true, "PreToolUse", "", 0⟩ := rfl

/-- Witness for C3 at a concrete machine state. -/
theorem malformed_input_fail_open_witness :
    handleStdin envPassing (Except.error ()) =
      .notTriggered ⟨true, "PreToolUse", "", 0⟩ :=
  malformed_input_fail_open envPassing

/-- C5: every command not matching the push pattern yields `continue: true`
with zero checks run and no report; the trigger tolerates flags and
arguments around `git push` and does not fire on commands containing
`push` without `git`. -/
theorem nonTrigger_passthrough :
    (∀ (env : Env) (input : Input), matchesGitPush (getCommand input) = false →
        processInput env input = .notTriggered (allowPush "")) ∧
    matchesGitPush "git push origin feature/x --force" = true ∧
    matchesGitPush "git push" = true ∧
    matchesGitPush "bash pushit.sh" = false ∧
    matchesGitPush "./pushit.sh deploy" = false := by
  refine ⟨?_, by decide, by decide, by decide, by decide⟩
  intro env input h
  unfold processInput
  rw [h]
  simp

/-- Witness for C5 at the concrete command `ls -la`. -/
theorem nonTrigger_passthrough_witness :
    matchesGitPush (getCommand inputLs) = false ∧
    processInput envPassing inputLs = .notTriggered (allowPush "") :=
  ⟨by decide, nonTrigger_passthrough.1 envPassing inputLs (by decide)⟩

/-- C9: branch naming check: `feature/login-fix` passes, `main` skips with a
"Protected branch" message, `random-branch` fails with an "Invalid branch
name" message; in general the check passes iff the branch matches the naming
pattern and skips iff the branch is `main`, `master` or `develop`. -/
theorem branchNaming_spec :
    branchNamingCheck "feature/login-fix" = ⟨Status.pass, "Branch name follows convention"⟩ ∧
    (branchNamingCheck "main").status = Status.skip ∧
    strContainsSub (branchNamingCheck "main").message "Protected branch" = true ∧
    (branchNamingCheck "random-branch").status = Status.fail ∧
    strContainsSub (branchNamingCheck "random-branch").message "Invalid branch name" = true ∧
    ∀ b : String,
      ((branchNamingCheck b).status = Status.pass ↔ validBranchPattern b = true) ∧
      ((branchNamingCheck b).status = Status.skip ↔
        (b = "main" ∨ b = "master" ∨ b = "develop")) := by
  refine ⟨by decide, by decide, by decide, by decide, by decide, ?_⟩
  intro b
  unfold branchNamingCheck
  by_cases hc : protectedBranches.contains b = true
  · have hmem : b = "main" ∨ b = "master" ∨ b = "develop" := by
      simpa [protectedBranches] using hc
    have hpat : validBranchPattern b = false := by
      rcases hmem with rfl | rfl | rfl <;> decide
    rw [if_pos hc]
    constructor
    · simp [hpat]
    · constructor
      · intro _; exact hmem
      · intro _; rfl
  · have hmem : ¬(b = "main" ∨ b = "master" ∨ b = "develop") := by
      intro hx
      apply hc
      rcases hx with rfl | rfl | rfl <;> decide
    rw [if_neg hc]
    by_cases hp : validBranchPattern b = true
    · rw [if_pos hp]
      constructor
      · simp [hp]
      · constructor
        · intro h; simp at h
        · intro h; exact absurd h hmem
    · rw [if_neg hp]
      constructor
      · constructor
        · intro h; simp at h
        · intro h; exact absurd h hp
      · constructor
        · intro h; simp at h
        · intro h; exact absurd h hmem

/-- Witness for C9 at the concrete branch `hotfix/urgent-1`. -/
theorem branchNaming_spec_witness :
    ((branchNamingCheck "hotfix/urgent-1").status = Status.pass ↔
      validBranchPattern "hotfix/urgent-1" = true) ∧
    ((branchNamingCheck "hotfix/urgent-1").status = Status.skip ↔
      ("hotfix/urgent-1" = "main" ∨ "hotfix/urgent-1" = "master" ∨
       "hotfix/urgent-1" = "develop")) :=
  branchNaming_spec.2.2.2.2.2 "hotfix/urgent-1"

/-- C8: commit lint: the subjects `["feat(auth): add login", "oops fix typo"]`
fail listing exactly `"oops fix typo"`; the single subject
`["fix: correct bug"]` passes; an empty commit range skips. -/
theorem commitLint_examples :
    (∀ env : Env, env.commitLog = .ok "feat(auth): add login\noops fix typo" →
      checkCommitMessages env = ⟨Status.fail,
        "Invalid commit messages:\n  - \"oops fix typo\"\n\nExpected format: type(scope): description\nTypes: feat, fix, docs, style, refactor, perf, test, build, ci, chore, revert"⟩) ∧
    invalidCommits ["feat(auth): add login", "oops fix typo"] = ["oops fix typo"] ∧
    (∀ env : Env, env.commitLog = .ok "fix: correct bug" →
      checkCommitMessages env = ⟨Status.pass, "1 commit(s) follow conventional format"⟩) ∧
    (∀ (env : Env) (raw : String), env.commitLog = .ok raw → commitsFrom raw = [] →
      checkCommitMessages env = ⟨Status.skip, "No new commits to check"⟩) := by
  refine ⟨?_, by decide, ?_, ?_⟩
  · intro env h
    unfold checkCommitMessages
    rw [h]
    decide
  · intro env h
    unfold checkCommitMessages
    rw [h]
    decide
  · intro env raw h hz
    unfold checkCommitMessages
    rw [h]
    show commitLintOf (commitsFrom raw) = _
    rw [hz]
    rfl

/-- Witness for C8 at concrete commit logs. -/
theorem commitLint_examples_witness :
    checkCommitMessages envCommitsBad = ⟨Status.fail,
      "Invalid commit messages:\n  - \"oops fix typo\"\n\nExpected format: type(scope): description\nTypes: feat, fix, docs, style, refactor, perf, test, build, ci, chore, revert"⟩ ∧
    checkCommitMessages envCommitsGood = ⟨Status.pass, "1 commit(s) follow conventional format"⟩ ∧
    checkCommitMessages envCommitsNone = ⟨Status.skip, "No new commits to check"⟩ :=
  ⟨commitLint_examples.1 envCommitsBad rfl,
   commitLint_examples.2.2.1 envCommitsGood rfl,
   commitLint_examples.2.2.2 envCommitsNone "" rfl rfl⟩

/-- C1: for every completed triggered run, the gate decision is block
(`continue: false`, exit code 2) iff at least one of the six check results
has status `fail`; any number of `skip` results never blocks (the
equivalence mentions only `fail` statuses), and when no check fails the run
ends with `continue: true` and exit code 0. -/
theorem gate_block_iff_some_fail (env : Env) (input : Input) (results : Results)
    (out : HookOutput) (h : processInput env input = .triggered results out) :
    ((out.cont = false ∧ out.exitCode = 2) ↔
      (results.branchNaming.status = Status.fail ∨ results.commitLint.status = Status.fail ∨
       results.lint.status = Status.fail ∨ results.typecheck.status = Status.fail ∨
       results.tests.status = Status.fail ∨ results.security.status = Status.fail)) ∧
    (¬(results.branchNaming.status = Status.fail ∨ results.commitLint.status = Status.fail ∨
       results.lint.status = Status.fail ∨ results.typecheck.status = Status.fail ∨
       results.tests.status = Status.fail ∨ results.security.status = Status.fail) →
      out.cont = true ∧ out.exitCode = 0 ∧ out.additionalContext = "") := by
  unfold processInput at h
  split at h
  · exact (RunResult.noConfusion h)
  · split at h
    case isTrue hlen =>
      rw [RunResult.triggered.injEq] at h
      obtain ⟨hr, ho⟩ := h
      subst hr
      subst ho
      constructor
      · constructor
        · intro _
          exact (failedList_pos_iff _).mp hlen
        · intro _
          exact ⟨rfl, rfl⟩
      · intro hno
        exact absurd ((failedList_pos_iff _).mp hlen) hno
    case isFalse hlen =>
      rw [RunResult.triggered.injEq] at h
      obtain ⟨hr, ho⟩ := h
      subst hr
      subst ho
      constructor
      · constructor
        · intro hco
          exact absurd hco.1 (by simp [allowPush])
        · intro hor
          exact absurd ((failedList_pos_iff _).mpr hor) hlen
      · intro _
        exact ⟨rfl, rfl, rfl⟩

/-- Witness for C1 at the all-skip passing machine state: the run is
triggered, no check fails, and the output allows with exit code 0. -/
theorem gate_block_iff_some_fail_witness :
    (allowPush "").cont = true ∧ (allowPush "").exitCode = 0 ∧
      (allowPush "").additionalContext = "" :=
  (gate_block_iff_some_fail envPassing inputGitPush (runChecks envPassing)
    (allowPush "") rfl).2 (by decide)

/-- C6: every completed triggered run carries exactly one result for each of
the six fixed checks, in the fixed order, and every status is `pass`, `fail`
or `skip` - `pending` never appears. -/
theorem triggered_total_coverage (env : Env) (input : Input) (results : Results)
    (out : HookOutput) (h : processInput env input = .triggered results out) :
    (resultsList results).map Prod.fst =
      ["branchNaming", "commitLint", "lint", "typecheck", "tests", "security"] ∧
    ∀ p ∈ resultsList results,
      (p.2.status = Status.pass ∨ p.2.status = Status.fail ∨ p.2.status = Status.skip) ∧
      p.2.status ≠ Status.pending := by
  have hres : results = runChecks env := by
    unfold processInput at h
    split at h
    · exact (RunResult.noConfusion h)
    · split at h <;>
        (rw [RunResult.triggered.injEq] at h; exact h.1.symm)
  subst hres
  refine ⟨rfl, ?_⟩
  intro p hp
  have hfin : statusFinal p.2 := by
    simp only [resultsList, List.mem_cons, List.not_mem_nil, or_false] at hp
    rcases hp with rfl | rfl | rfl | rfl | rfl | rfl
    · exact branchNamingCheck_final _
    · exact checkCommitMessages_final _
    · exact runLint_final _
    · exact runTypeCheck_final _
    · exact runTests_final _
    · exact runSecurityScan_final _
  exact ⟨hfin, not_pending_of_final hfin⟩

/-- Witness for C6 at the all-skip passing machine state. -/
theorem triggered_total_coverage_witness :
    (resultsList (runChecks envPassing)).map Prod.fst =
      ["branchNaming", "commitLint", "lint", "typecheck", "tests", "security"] ∧
    ("security", (runChecks envPassing).security).2.status ≠ Status.pending :=
  ⟨(triggered_total_coverage envPassing inputGitPush (runChecks envPassing)
      (allowPush "") rfl).1,
   ((triggered_total_coverage envPassing inputGitPush (runChecks envPassing)
      (allowPush "") rfl).2 ("security", (runChecks envPassing).security)
      (by decide)).2⟩

/-- C7: the security check skips when `package.json` is absent, passes on a
zero audit exit code, passes on a nonzero exit whose captured output
mentions neither "high" nor "critical", and otherwise fails with the output
truncated to at most 500 characters. -/
theorem securityScan_spec (env : Env) (r : SpawnResult) :
    (env.packageJsonExists = false →
      runSecurityScan env = ⟨Status.skip, "No package.json found"⟩) ∧
    (env.packageJsonExists = true → env.npmAudit = .completed r →
      (r.exitStatus = some 0 →
        runSecurityScan env = ⟨Status.pass, "No high/critical vulnerabilities"⟩) ∧
      (r.exitStatus ≠ some 0 →
        (strContainsSub (secOutput r) "high" = false →
          strContainsSub (secOutput r) "critical" = false →
          runSecurityScan env = ⟨Status.pass, "No high/critical vulnerabilities"⟩) ∧
        ((strContainsSub (secOutput r) "high" = true ∨
            strContainsSub (secOutput r) "critical" = true) →
          runSecurityScan env =
            ⟨Status.fail, "Security vulnerabilities found:\n" ++ jsSlice (secOutput r) 500⟩ ∧
          (jsSlice (secOutput r) 500).length ≤ 500))) := by
  constructor
  · intro h
    unfold runSecurityScan
    rw [h]
    rfl
  · intro hpj hsp
    have hrs : runSecurityScan env =
        (if r.exitStatus = some 0 then
          (⟨Status.pass, "No high/critical vulnerabilities"⟩ : CheckResult)
        else
          let output := secOutput r
          if (strContainsSub output "high" || strContainsSub output "critical") = true then
            ⟨Status.fail, "Security vulnerabilities found:\n" ++ jsSlice output 500⟩
          else ⟨Status.pass, "No high/critical vulnerabilities"⟩) := by
      unfold runSecurityScan
      rw [hpj, hsp]
      rfl
    rw [hrs]
    refine ⟨?_, ?_⟩
    · intro hz
      rw [if_pos hz]
    · intro hnz
      rw [if_neg hnz]
      constructor
      · intro hh hcrit
        simp [hh, hcrit]
      · intro hor
        have hcond :
            (strContainsSub (secOutput r) "high" || strContainsSub (secOutput r) "critical") = true := by
          rcases hor with h | h <;> simp [h]
        refine ⟨by simp [hcond], ?_⟩
        unfold jsSlice
        rw [String.length_mk, List.length_take]
        exact Nat.min_le_left _ _

/-- Witness for C7: the four verdict branches at concrete audit outcomes. -/
theorem securityScan_spec_witness :
    runSecurityScan envPassing = ⟨Status.skip, "No package.json found"⟩ ∧
    runSecurityScan envAuditClean = ⟨Status.pass, "No high/critical vulnerabilities"⟩ ∧
    runSecurityScan envAuditWarn = ⟨Status.pass, "No high/critical vulnerabilities"⟩ ∧
    runSecurityScan envAuditFail =
      ⟨Status.fail, "Security vulnerabilities found:\n" ++ jsSlice (secOutput auditFailR) 500⟩ ∧
    (jsSlice (secOutput auditFailR) 500).length ≤ 500 :=
  ⟨(securityScan_spec envPassing auditFailR).1 rfl,
   ((securityScan_spec envAuditClean ⟨some 0, "", ""⟩).2 rfl rfl).1 rfl,
   ((((securityScan_spec envAuditWarn auditWarnR).2 rfl rfl).2 (by decide)).1
      (by decide) (by decide)),
   ((((securityScan_spec envAuditFail auditFailR).2 rfl rfl).2 (by decide)).2
      (Or.inl (by decide))).1,
   ((((securityScan_spec envAuditFail auditFailR).2 rfl rfl).2 (by decide)).2
      (Or.inl (by decide))).2⟩

/-- C10: when the current-branch query fails, the branch resolves to the
literal "unknown", which is neither protected nor pattern-conforming, so
the branch-naming check fails and every triggered run blocks (fail-closed,
not a skip). -/
theorem branch_resolution_fail_closed (env : Env) (input : Input)
    (hgit : env.gitBranch = .error ())
    (htrig : matchesGitPush (getCommand input) = true) :
    getCurrentBranch env = "unknown" ∧
    (runChecks env).branchNaming.status = Status.fail ∧
    ∃ out : HookOutput, processInput env input = .triggered (runChecks env) out ∧
      out.cont = false ∧ out.exitCode = 2 := by
  have hbr : getCurrentBranch env = "unknown" := by
    unfold getCurrentBranch
    rw [hgit]
  have hbn : (runChecks env).branchNaming.status = Status.fail := by
    show (branchNamingCheck (getCurrentBranch env)).status = Status.fail
    rw [hbr]
    decide
  have hlen : 0 < (failedList (runChecks env)).length :=
    (failedList_pos_iff _).mpr (Or.inl hbn)
  refine ⟨hbr, hbn,
    blockPush ("Local CI failed: " ++
      jsJoin ", " ((failedList (runChecks env)).map (fun f => formatName f.1)) ++
      "\n\nFix these issues before pushing to ensure GitHub Actions will pass."),
    ?_, rfl, rfl⟩
  simp [processInput, htrig, hlen]

/-- Witness for C10 at a machine state whose branch query throws. -/
theorem branch_resolution_fail_closed_witness :
    getCurrentBranch envNoGit = "unknown" ∧
    (runChecks envNoGit).branchNaming.status = Status.fail :=
  ⟨(branch_resolution_fail_closed envNoGit inputGitPush rfl rfl).1,
   (branch_resolution_fail_closed envNoGit inputGitPush rfl rfl).2.1⟩

/-- C2 counterexample: with a lint script configured, a lint invocation
killed by its timeout yields `fail`, not `skip`: `spawnSync` reports the
timeout through the returned record (`status: null`, modelled as
`exitStatus = none`) and does not throw, so execution takes the
exit-status branch.  A missing `npm` binary likewise surfaces as shell
exit code 127 and yields `fail` with the shell diagnostic. -/
theorem execError_skip_counterexample :
    runLint envLintTimeout = ⟨Status.fail, "Lint errors:\nUnknown error"⟩ ∧
    (runLint envLintTimeout).status ≠ Status.skip ∧
    runLint envLintMissingBinary =
      ⟨Status.fail, "Lint errors:\nsh: 1: npm: not found"⟩ ∧
    (runLint envLintMissingBinary).status ≠ Status.skip :=
  ⟨rfl, by decide, rfl, by decide⟩

/-- C2 amended: an execution error *thrown* inside a check (unreadable or
unparseable manifest, or an exception raised by the spawn layer) is caught
and downgraded to `skip` carrying the error message, never surfaced as
`fail`, and never escapes the check: a triggered run always completes with
all six results.  However, an invocation failure that `spawnSync` reports
through the returned record - a timeout kill (null exit status) or a
missing binary (nonzero shell exit) - takes the exit-status path and yields
`fail`, not `skip`. -/
theorem thrown_errors_downgrade_to_skip (env : Env) (input : Input) (m : Manifest)
    (msg s : String) (r : SpawnResult) :
    (env.packageJsonExists = true → env.manifest = .error msg →
      runLint env = ⟨Status.skip, "Lint check error: " ++ msg⟩ ∧
      runTests env = ⟨Status.skip, "Test error: " ++ msg⟩ ∧
      (env.tsconfigExists = true →
        runTypeCheck env = ⟨Status.skip, "TypeScript check error: " ++ msg⟩)) ∧
    (env.packageJsonExists = true → env.npmAudit = .thrown msg →
      runSecurityScan env = ⟨Status.skip, "Security scan error: " ++ msg⟩) ∧
    (env.packageJsonExists = true → env.manifest = .ok m → truthy m.lintScript = true →
      (env.npmRunLint = .thrown msg →
        runLint env = ⟨Status.skip, "Lint check error: " ++ msg⟩) ∧
      (env.npmRunLint = .completed r → r.exitStatus ≠ some 0 →
        (runLint env).status = Status.fail)) ∧
    (env.packageJsonExists = true → env.manifest = .ok m → m.testScript = some s →
      s ≠ "" → strContainsSub s "no test specified" = false →
      (env.npmTest = .thrown msg →
        runTests env = ⟨Status.skip, "Test error: " ++ msg⟩) ∧
      (env.npmTest = .completed r → r.exitStatus ≠ some 0 →
        (runTests env).status = Status.fail)) ∧
    (matchesGitPush (getCommand input) = true →
      ∃ res outp, processInput env input = .triggered res outp) := by
  refine ⟨?_, ?_, ?_, ?_, ?_⟩
  · intro hpj hman
    refine ⟨by simp [runLint, hpj, hman], by simp [runTests, hpj, hman], ?_⟩
    intro hts
    simp [runTypeCheck, hts, hpj, hman]
  · intro hpj haud
    simp [runSecurityScan, hpj, haud]
  · intro hpj hman hscript
    constructor
    · intro hthr
      simp [runLint, hpj, hman, hscript, hthr]
    · intro hcomp hnz
      simp [runLint, hpj, hman, hscript, hcomp, hnz]
  · intro hpj hman htest hs hincl
    constructor
    · intro hthr
      simp [runTests, hpj, hman, htest, hs, hincl, hthr, truthy]
    · intro hcomp hnz
      simp [runTests, hpj, hman, htest, hs, hincl, hcomp, hnz, truthy]
  · intro htrig
    simp only [processInput, htrig]
    split
    · rename_i hcontra
      exact absurd hcontra (by simp)
    · split
      · exact ⟨runChecks env, _, rfl⟩
      · exact ⟨runChecks env, _, rfl⟩

/-- Witness for the amended C2 at concrete machine states: manifest parse
errors and thrown spawns skip with the error message; a timed-out spawn
reported through the result record fails. -/
theorem thrown_errors_downgrade_to_skip_witness :
    runLint envManifestBroken =
      ⟨Status.skip, "Lint check error: Unexpected token in JSON"⟩ ∧
    runTests envManifestBroken =
      ⟨Status.skip, "Test error: Unexpected token in JSON"⟩ ∧
    runTypeCheck envManifestBroken =
      ⟨Status.skip, "TypeScript check error: Unexpected token in JSON"⟩ ∧
    runSecurityScan envAuditThrown = ⟨Status.skip, "Security scan error: audit boom"⟩ ∧
    runLint envLintThrown = ⟨Status.skip, "Lint check error: spawn failure"⟩ ∧
    (runLint envLintTimeout).status = Status.fail ∧
    runTests envTestThrown = ⟨Status.skip, "Test error: boom"⟩ :=
  ⟨((thrown_errors_downgrade_to_skip envManifestBroken inputGitPush manifestLintOnly
      "Unexpected token in JSON" "" ⟨none, "", ""⟩).1 rfl rfl).1,
   ((thrown_errors_downgrade_to_skip envManifestBroken inputGitPush manifestLintOnly
      "Unexpected token in JSON" "" ⟨none, "", ""⟩).1 rfl rfl).2.1,
   ((thrown_errors_downgrade_to_skip envManifestBroken inputGitPush manifestLintOnly
      "Unexpected token in JSON" "" ⟨none, "", ""⟩).1 rfl rfl).2.2 rfl,
   (thrown_errors_downgrade_to_skip envAuditThrown inputGitPush manifestLintOnly
      "audit boom" "" ⟨none, "", ""⟩).2.1 rfl rfl,
   ((thrown_errors_downgrade_to_skip envLintThrown inputGitPush manifestLintOnly
      "spawn failure" "" ⟨none, "", ""⟩).2.2.1 rfl rfl (by decide)).1 rfl,
   ((thrown_errors_downgrade_to_skip envLintTimeout inputGitPush manifestLintOnly
      "" "" ⟨none, "", ""⟩).2.2.1 rfl rfl (by decide)).2 rfl (by decide),
   ((thrown_errors_downgrade_to_skip envTestThrown inputGitPush manifestTestOnly
      "boom" "jest" ⟨none, "", ""⟩).2.2.2.1 rfl rfl rfl (by decide) (by decide)).1 rfl⟩

/-- C4 counterexample: at a blocked run whose only failure is the
branch-naming check, `additionalContext` contains the failed check's name
but not its message: the claim that the aggregated reason lists every
failed check's message (its full diagnostic text) is false on the code,
which places only the comma-joined names there. -/
theorem blockReason_counterexample :
    processInput envBranchFail inputGitPush = .triggered resultsBranchFail outBranchFail ∧
    outBranchFail.cont = false ∧
    outBranchFail.exitCode = 2 ∧
    resultsBranchFail.branchNaming.status = Status.fail ∧
    strContainsSub resultsBranchFail.branchNaming.message "Invalid branch name" = true ∧
    strContainsSub outBranchFail.additionalContext "Branch Naming" = true ∧
    strContainsSub outBranchFail.additionalContext "Invalid branch name" = false ∧
    strContainsSub outBranchFail.additionalContext
      resultsBranchFail.branchNaming.message = false :=
  ⟨rfl, rfl, rfl, rfl, by decide, by decide, by decide, by decide⟩

/-- C4 amended: on every blocked run `additionalContext` is exactly
"Local CI failed: " followed by the comma-joined formatted names of the
failed checks and a fixed trailer; every failed check's name occurs in it,
but the failed checks' messages are not included (they go to the stderr
report). -/
theorem blockReason_lists_failed_names (env : Env) (input : Input)
    (results : Results) (out : HookOutput)
    (h : processInput env input = .triggered results out)
    (hblock : out.cont = false) :
    out.additionalContext =
      "Local CI failed: " ++
        jsJoin ", " ((failedList results).map (fun f => formatName f.1)) ++
        "\n\nFix these issues before pushing to ensure GitHub Actions will pass." ∧
    ∀ p ∈ failedList results, strContainsSub out.additionalContext (formatName p.1) = true := by
  unfold processInput at h
  split at h
  · exact (RunResult.noConfusion h)
  · split at h
    case isTrue hlen =>
      rw [RunResult.triggered.injEq] at h
      obtain ⟨hr, ho⟩ := h
      subst hr
      subst ho
      refine ⟨rfl, ?_⟩
      intro p hp
      apply strContainsSub_of_strHas
      apply strHas_appendL
      apply strHas_appendR
      exact strHas_mem_jsJoin _ (List.mem_map_of_mem _ hp)
    case isFalse hlen =>
      rw [RunResult.triggered.injEq] at h
      obtain ⟨hr, ho⟩ := h
      subst hr
      subst ho
      simp [allowPush] at hblock

/-- Witness for the amended C4 at the concrete blocked run. -/
theorem blockReason_lists_failed_names_witness :
    outBranchFail.additionalContext =
      "Local CI failed: " ++
        jsJoin ", " ((failedList resultsBranchFail).map (fun f => formatName f.1)) ++
        "\n\nFix these issues before pushing to ensure GitHub Actions will pass." ∧
    strContainsSub outBranchFail.additionalContext (formatName "branchNaming") = true :=
  ⟨(blockReason_lists_failed_names envBranchFail inputGitPush resultsBranchFail
      outBranchFail rfl rfl).1,
   (blockReason_lists_failed_names envBranchFail inputGitPush resultsBranchFail
      outBranchFail rfl rfl).2
     ("branchNaming", resultsBranchFail.branchNaming) (by decide)⟩

end PushGate
